import Mathlib

/-!
Verification of the document-editor core (src/app/page.js): the indent-ruler
drag model (`setFromDrag`, lines 226-269), the ruler pointer-event handlers
(lines 271-304), the pagination estimator (`updatePagination`, lines 815-834
and its event wiring, lines 836-870), and the `setIndentRuler` editor command
(lines 43-88).  Numbers are modelled as exact rationals; the JavaScript
`Math.round` is modelled as `jround`, rounding half toward positive infinity.
-/

namespace DocEditor

/-- Translation of the source helper `clamp(value, min, max)` at line 91:
`Math.min(max, Math.max(min, value))`. -/
def clamp (value lo hi : ℚ) : ℚ := min hi (max lo value)

/-- Model of JavaScript `Math.round`: rounds to the nearest integer, with
halves rounded toward positive infinity. -/
def jround (q : ℚ) : ℤ := ⌊q + 1 / 2⌋

/-- Identity of the three draggable ruler markers: the strings
"left", "firstLine", "right" used by `setFromDrag`. -/
inductive Marker where
  | left
  | firstLine
  | right
  deriving DecidableEq

/-- Per-block indent state, mirroring the `{leftIndent, rightIndent,
firstLineIndent}` triples carried through `setFromDrag`. -/
structure IndentState where
  leftIndent : ℚ
  rightIndent : ℚ
  firstLineIndent : ℚ
  deriving DecidableEq

/-- Constant `minGap = 12` from line 109 of the source. -/
def minGap : ℚ := 12

/-- Translation of `setFromDrag(type, absoluteX)` (lines 226-269), reading the
current state and track width as explicit arguments.  The source assigns
`next.leftIndent = Math.round(newLeftX)` and analogous rounded values; note
that in the left branch the unrounded `newLeftX` is subtracted when the new
first-line indent is computed, exactly as in the source. -/
def setFromDrag (trackWidth : ℚ) (ty : Marker) (absoluteX : ℚ)
    (s : IndentState) : IndentState :=
  let width := trackWidth
  let rightEdgeX := width - s.rightIndent
  let currentFirstLineX := s.leftIndent + s.firstLineIndent
  match ty with
  | .left =>
      let maxLeftX := max 0 (rightEdgeX - minGap)
      let newLeftX := clamp absoluteX 0 maxLeftX
      let minFirstLineX : ℚ := 0
      let maxFirstLineX := max minFirstLineX (width - s.rightIndent)
      let newFirstLineX := clamp currentFirstLineX minFirstLineX maxFirstLineX
      { s with
        leftIndent := (jround newLeftX : ℤ)
        firstLineIndent := (jround (newFirstLineX - newLeftX) : ℤ) }
  | .firstLine =>
      let minFirstLineX : ℚ := 0
      let maxFirstLineX := max minFirstLineX (width - s.rightIndent)
      let newFirstLineX := clamp absoluteX minFirstLineX maxFirstLineX
      { s with firstLineIndent := (jround (newFirstLineX - s.leftIndent) : ℤ) }
  | .right =>
      let minRightX := min width (s.leftIndent + minGap)
      let newRightX := clamp absoluteX minRightX width
      let newRightIndent : ℤ := jround (width - newRightX)
      let nextRightEdgeX := width - (newRightIndent : ℚ)
      let minFirstLineX : ℚ := 0
      let maxFirstLineX := max minFirstLineX nextRightEdgeX
      let newFirstLineX := clamp currentFirstLineX minFirstLineX maxFirstLineX
      { s with
        rightIndent := (newRightIndent : ℚ)
        firstLineIndent := (jround (newFirstLineX - s.leftIndent) : ℤ) }

/-- Integer-valued indent state, used to relate `setFromDrag` on integer
inputs to pure integer arithmetic. -/
structure IndentStateZ where
  leftIndent : ℤ
  rightIndent : ℤ
  firstLineIndent : ℤ
  deriving DecidableEq

/-- Integer clamp, the image of `clamp` on integer arguments. -/
def clampZ (value lo hi : ℤ) : ℤ := min hi (max lo value)

/-- Cast of an integer indent state into the rational model. -/
def castState (s : IndentStateZ) : IndentState :=
  ⟨(s.leftIndent : ℚ), (s.rightIndent : ℚ), (s.firstLineIndent : ℚ)⟩

/-- Integer image of `setFromDrag` when the track width, pointer position and
all state components are integers; rounding is then the identity. -/
def setFromDragZ (w : ℤ) (ty : Marker) (x : ℤ) (s : IndentStateZ) :
    IndentStateZ :=
  match ty with
  | .left =>
      let maxLeftX := max 0 (w - s.rightIndent - 12)
      let newLeftX := clampZ x 0 maxLeftX
      let maxFirstLineX := max 0 (w - s.rightIndent)
      let newFirstLineX := clampZ (s.leftIndent + s.firstLineIndent) 0 maxFirstLineX
      { s with
        leftIndent := newLeftX
        firstLineIndent := newFirstLineX - newLeftX }
  | .firstLine =>
      let maxFirstLineX := max 0 (w - s.rightIndent)
      let newFirstLineX := clampZ x 0 maxFirstLineX
      { s with firstLineIndent := newFirstLineX - s.leftIndent }
  | .right =>
      let minRightX := min w (s.leftIndent + 12)
      let newRightX := clampZ x minRightX w
      let newRightIndent := w - newRightX
      let maxFirstLineX := max 0 (w - newRightIndent)
      let newFirstLineX := clampZ (s.leftIndent + s.firstLineIndent) 0 maxFirstLineX
      { s with
        rightIndent := newRightIndent
        firstLineIndent := newFirstLineX - s.leftIndent }

/- Pagination estimator (lines 815-834). -/

/-- Measurements of the scrollable editor container: `scrollHeight` and
`scrollTop` read at lines 823 and 825. -/
structure Container where
  scrollHeight : ℚ
  scrollTop : ℚ
  deriving DecidableEq

/-- Exposed pagination state `{pageCount, currentPage}`. -/
structure PagState where
  pageCount : ℤ
  currentPage : ℤ
  deriving DecidableEq

/-- Translation of line 822: `(pageHeightInches * window.devicePixelRatio *
96) / window.devicePixelRatio` with `pageHeightInches = 11`. -/
def pageHeightPx (dpr : ℚ) : ℚ := 11 * dpr * 96 / dpr

/-- Core of `updatePagination` (lines 820-833) once the container is
available: page count and current page from the measured heights. -/
def computePagination (dpr : ℚ) (c : Container) : PagState :=
  let ph := pageHeightPx dpr
  let newPageCount := max 1 ⌈c.scrollHeight / ph⌉
  let current := min newPageCount (max 1 (⌊c.scrollTop / ph⌋ + 1))
  ⟨newPageCount, current⟩

/-- Translation of `updatePagination` (lines 815-834): when the container
reference is not yet available (lines 816-818) the function returns without
touching the exposed state. -/
def updatePagination (dpr : ℚ) : Option Container → PagState → PagState
  | none, s => s
  | some c, _ => computePagination dpr c

/-- Events after which the pagination state is observed.  The first four are
wired to `updatePagination` in the source: initial mount and container scroll
at lines 836-852, editor content update and selection update at lines
854-870.  No handler for a container resize is registered anywhere in `Home`
(the only `ResizeObserver`, lines 169-188, feeds the ruler track width), so a
resize leaves the pagination state as it was. -/
inductive PagEvent where
  | mount
  | scroll
  | contentUpdate
  | selectionUpdate
  | resize
  deriving DecidableEq

/-- Effect of one event on the exposed pagination state, per the wiring in
`Home` described at `PagEvent`. -/
def handlePagEvent (dpr : ℚ) (e : PagEvent) (oc : Option Container)
    (s : PagState) : PagState :=
  match e with
  | .resize => s
  | _ => updatePagination dpr oc s

/- Helper lemmas about rounding and clamping. -/

theorem jround_intCast (n : ℤ) : jround (n : ℚ) = n := by
  rw [jround, show ((n : ℚ) + 1 / 2) = (n : ℚ) + (1 / 2 : ℚ) from rfl,
    Int.floor_int_add]
  norm_num

theorem jround_mono {a b : ℚ} (h : a ≤ b) : jround a ≤ jround b := by
  exact Int.floor_le_floor (by linarith)

theorem jround_le_intCast {q : ℚ} {n : ℤ} (h : q ≤ (n : ℚ)) : jround q ≤ n := by
  have := jround_mono h
  rwa [jround_intCast] at this

theorem clamp_intCast (v lo hi : ℤ) :
    clamp (v : ℚ) (lo : ℚ) (hi : ℚ) = ((clampZ v lo hi : ℤ) : ℚ) := by
  simp [clamp, clampZ]

theorem clamp_le_hi (v lo hi : ℚ) : clamp v lo hi ≤ hi := min_le_left _ _

theorem lo_le_clamp {v lo hi : ℚ} (h : lo ≤ hi) : lo ≤ clamp v lo hi :=
  le_min h (le_max_left _ _)

/-- Simulation lemma: on integer track width, pointer position and state,
`setFromDrag` computes the cast of the pure integer function `setFromDragZ`. -/
theorem setFromDrag_castState (w x : ℤ) (ty : Marker) (s : IndentStateZ) :
    setFromDrag (w : ℚ) ty (x : ℚ) (castState s) =
      castState (setFromDragZ w ty x s) := by
  obtain ⟨l, r, f⟩ := s
  cases ty
  case left =>
    have h1 : clamp (x : ℚ) 0 (max 0 ((w : ℚ) - (r : ℚ) - 12)) =
        ((clampZ x 0 (max 0 (w - r - 12)) : ℤ) : ℚ) := by
      simp only [clamp, clampZ]
      push_cast
      rfl
    have h2 : clamp ((l : ℚ) + (f : ℚ)) 0 (max 0 ((w : ℚ) - (r : ℚ))) =
        ((clampZ (l + f) 0 (max 0 (w - r)) : ℤ) : ℚ) := by
      simp only [clamp, clampZ]
      push_cast
      rfl
    simp only [setFromDrag, setFromDragZ, castState, minGap, IndentState.mk.injEq]
    rw [h1, h2, ← Int.cast_sub, jround_intCast, jround_intCast]
    simp
  case firstLine =>
    have h1 : clamp (x : ℚ) 0 (max 0 ((w : ℚ) - (r : ℚ))) =
        ((clampZ x 0 (max 0 (w - r)) : ℤ) : ℚ) := by
      simp only [clamp, clampZ]
      push_cast
      rfl
    simp only [setFromDrag, setFromDragZ, castState, minGap, IndentState.mk.injEq]
    rw [h1, ← Int.cast_sub, jround_intCast]
    simp
  case right =>
    have h1 : clamp (x : ℚ) (min (w : ℚ) ((l : ℚ) + 12)) (w : ℚ) =
        ((clampZ x (min w (l + 12)) w : ℤ) : ℚ) := by
      simp only [clamp, clampZ]
      push_cast
      rfl
    have h2 : ((w : ℚ) - ((w - clampZ x (min w (l + 12)) w : ℤ) : ℚ)) =
        ((w - (w - clampZ x (min w (l + 12)) w) : ℤ) : ℚ) := by
      push_cast
      ring
    have h3 : clamp ((l : ℚ) + (f : ℚ)) 0
        (max 0 ((w - (w - clampZ x (min w (l + 12)) w) : ℤ) : ℚ)) =
        ((clampZ (l + f) 0 (max 0 (w - (w - clampZ x (min w (l + 12)) w))) : ℤ) : ℚ) := by
      simp only [clamp, clampZ]
      push_cast
      rfl
    simp only [setFromDrag, setFromDragZ, castState, minGap, IndentState.mk.injEq]
    rw [h1, ← Int.cast_sub, jround_intCast, h2, h3, ← Int.cast_sub, jround_intCast]
    simp

/- Claim C1. -/

/-- C1: for every positive devicePixelRatio the estimator uses the fixed page
height 1056px, computes pageCount as max 1 of the ceiling of contentHeight
over 1056 and currentPage as the clamp of floor scrollOffset over 1056 plus
one into the range from 1 to pageCount (written as min pageCount of max 1,
which is what both the claimed clamp and the source compute); the listed
concrete instances follow, the last one on a container of content height
3000 whose page count is 3. -/
theorem pagination_formula_fixed_height (dpr h off : ℚ)
    (hdpr : 0 < dpr) (hh : 0 ≤ h) (hoff : 0 ≤ off) :
    pageHeightPx dpr = 1056 ∧
    computePagination dpr ⟨h, off⟩ =
      ⟨max 1 ⌈h / 1056⌉, min (max 1 ⌈h / 1056⌉) (max 1 (⌊off / 1056⌋ + 1))⟩ ∧
    computePagination dpr ⟨0, off⟩ = ⟨1, 1⟩ ∧
    (computePagination dpr ⟨1056, off⟩).pageCount = 1 ∧
    (computePagination dpr ⟨1057, off⟩).pageCount = 2 ∧
    computePagination dpr ⟨3000, 1056⟩ = ⟨3, 2⟩ := by
  have hph : pageHeightPx dpr = 1056 := by
    rw [pageHeightPx]
    field_simp
    ring
  have hceil : (⌈(1057 : ℚ) / 1056⌉ : ℤ) = 2 := by
    rw [Int.ceil_eq_iff] <;> norm_num
  have hceil3 : (⌈(3000 : ℚ) / 1056⌉ : ℤ) = 3 := by
    rw [Int.ceil_eq_iff] <;> norm_num
  refine ⟨hph, ?_, ?_, ?_, ?_, ?_⟩
  · simp [computePagination, hph]
  · simp [computePagination, hph]
  · simp [computePagination, hph]
  · simp [computePagination, hph, hceil]
  · simp [computePagination, hph, hceil3]

/-- Witness for C1, at devicePixelRatio 2, content height 5, scroll offset 7. -/
theorem pagination_formula_fixed_height_witness : pageHeightPx 2 = 1056 :=
  (pagination_formula_fixed_height 2 5 7 (by norm_num) (by norm_num)
    (by norm_num)).1

/- Claim C2. -/

/-- C2 counterexample: with the fractional track width 100.6 (widths come
from `getBoundingClientRect().width` and are not integers in general), the
all-zero state and a left drag to x = 2000, the new left indent rounds up to
89 while trackWidth minus rightIndent minus minGap is 88.6, so the claimed
gap invariant fails although trackWidth is at least twice minGap. -/
theorem min_gap_invariant_counterexample :
    2 * minGap ≤ (503 / 5 : ℚ) ∧
    ¬ ((setFromDrag (503 / 5) .left 2000 ⟨0, 0, 0⟩).leftIndent ≤
        503 / 5 - (setFromDrag (503 / 5) .left 2000 ⟨0, 0, 0⟩).rightIndent
          - minGap) := by
  constructor
  · norm_num [minGap]
  · norm_num [setFromDrag, clamp, jround, minGap]

/-- C2 amended: on an integer track width and an input state with integer
left and right indents that already satisfies the gap invariant
(0 ≤ leftIndent, 0 ≤ rightIndent, leftIndent ≤ trackWidth − rightIndent −
minGap), one `setFromDrag` update for any marker and any rational pointer
position again satisfies leftIndent ≤ trackWidth − rightIndent − minGap. -/
theorem min_gap_invariant_preserved (w l r : ℤ) (f x : ℚ) (m : Marker)
    (hl : 0 ≤ l) (hr : 0 ≤ r) (hgap : l ≤ w - r - 12) :
    (setFromDrag (w : ℚ) m x ⟨(l : ℚ), (r : ℚ), f⟩).leftIndent ≤
      (w : ℚ) - (setFromDrag (w : ℚ) m x ⟨(l : ℚ), (r : ℚ), f⟩).rightIndent
        - minGap := by
  have hwr : (0 : ℤ) ≤ w - r - 12 := by omega
  cases m
  case left =>
    simp only [setFromDrag, minGap]
    have hmax : max (0 : ℚ) ((w : ℚ) - (r : ℚ) - 12) = ((w - r - 12 : ℤ) : ℚ) := by
      rw [max_eq_right (by exact_mod_cast hwr)]
      push_cast
      ring
    have h1 : jround (clamp x 0 (max 0 ((w : ℚ) - (r : ℚ) - 12))) ≤ w - r - 12 := by
      apply jround_le_intCast
      calc clamp x 0 (max 0 ((w : ℚ) - (r : ℚ) - 12)) ≤
            max 0 ((w : ℚ) - (r : ℚ) - 12) := clamp_le_hi _ _ _
        _ = ((w - r - 12 : ℤ) : ℚ) := hmax
    have h2 : ((jround (clamp x 0 (max 0 ((w : ℚ) - (r : ℚ) - 12))) : ℤ) : ℚ) ≤
        ((w - r - 12 : ℤ) : ℚ) := Int.cast_le.mpr h1
    push_cast at h2 ⊢
    linarith
  case firstLine =>
    simp only [setFromDrag, minGap]
    have : ((l : ℚ)) ≤ (w : ℚ) - (r : ℚ) - 12 := by exact_mod_cast hgap
    linarith
  case right =>
    simp only [setFromDrag, minGap]
    have hlw : ((l : ℚ)) + 12 ≤ (w : ℚ) := by
      have : l + 12 ≤ w := by omega
      exact_mod_cast this
    have hmin : min (w : ℚ) ((l : ℚ) + 12) = (l : ℚ) + 12 := min_eq_right hlw
    have hcl : (l : ℚ) + 12 ≤ clamp x (min (w : ℚ) ((l : ℚ) + 12)) (w : ℚ) := by
      rw [hmin]
      exact lo_le_clamp hlw
    have h1 : jround ((w : ℚ) - clamp x (min (w : ℚ) ((l : ℚ) + 12)) (w : ℚ)) ≤
        w - l - 12 := by
      apply jround_le_intCast
      push_cast
      linarith
    have h2 : ((jround ((w : ℚ) - clamp x (min (w : ℚ) ((l : ℚ) + 12)) (w : ℚ)) : ℤ) : ℚ) ≤
        ((w - l - 12 : ℤ) : ℚ) := Int.cast_le.mpr h1
    push_cast at h2 ⊢
    linarith

/-- Witness for C2 amended at track width 960, the all-zero state, a left
drag to x = 100. -/
theorem min_gap_invariant_preserved_witness :
    (setFromDrag (960 : ℚ) .left 100 ⟨0, 0, 0⟩).leftIndent ≤
      (960 : ℚ) - (setFromDrag (960 : ℚ) .left 100 ⟨0, 0, 0⟩).rightIndent
        - minGap := by
  have h := min_gap_invariant_preserved 960 0 0 0 100 .left (by norm_num)
    (by norm_num) (by norm_num)
  push_cast at h
  exact h

/- Claim C6. -/

/-- C6: a left-marker update never changes rightIndent, a right-marker update
never changes leftIndent, and a first-line update changes neither leftIndent
nor rightIndent, for every state, track width and pointer position. -/
theorem drag_frame_conditions (w x : ℚ) (s : IndentState) :
    (setFromDrag w .left x s).rightIndent = s.rightIndent ∧
    (setFromDrag w .right x s).leftIndent = s.leftIndent ∧
    (setFromDrag w .firstLine x s).leftIndent = s.leftIndent ∧
    (setFromDrag w .firstLine x s).rightIndent = s.rightIndent :=
  ⟨rfl, rfl, rfl, rfl⟩

/- Claim C3. -/

/-- C3 counterexample: a resize of the measured container does not re-run the
estimator (no resize watcher is attached to `editorRef`), so after a resize
event the exposed state can differ from the estimator applied to the current
measurements: here the container holds 3000px of content but the exposed
state still says one page. -/
theorem pagination_resize_counterexample :
    handlePagEvent 1 .resize (some ⟨3000, 0⟩) ⟨1, 1⟩ ≠
      computePagination 1 ⟨3000, 0⟩ := by
  have hceil3 : (⌈(3000 : ℚ) / 1056⌉ : ℤ) = 3 := by
    rw [Int.ceil_eq_iff] <;> norm_num
  have hph : pageHeightPx 1 = 1056 := by
    norm_num [pageHeightPx]
  have h : computePagination 1 ⟨3000, 0⟩ = ⟨3, 1⟩ := by
    simp [computePagination, hph, hceil3]
  rw [h]
  simp [handlePagEvent]

/-- C3 amended: the estimator is re-run on the four wired trigger events
(initial mount, container scroll, content-document update, selection update):
after handling any of them with the container available, the exposed state
equals the estimator applied to the current container measurements.  There is
no fifth resize trigger in the source. -/
theorem pagination_trigger_events (dpr : ℚ) (c : Container) (s : PagState)
    (e : PagEvent) (he : e ≠ .resize) :
    handlePagEvent dpr e (some c) s = computePagination dpr c := by
  cases e
  case resize => exact absurd rfl he
  all_goals rfl

/-- Witness for C3 amended, at the scroll event on a concrete container. -/
theorem pagination_trigger_events_witness :
    handlePagEvent 1 .scroll (some ⟨3000, 0⟩) ⟨1, 1⟩ =
      computePagination 1 ⟨3000, 0⟩ :=
  pagination_trigger_events 1 ⟨3000, 0⟩ ⟨1, 1⟩ .scroll (by decide)

/- Claim C7. -/

/-- Idempotence of the integer image of the drag update, proven by linear
integer arithmetic in each marker branch. -/
theorem setFromDragZ_idem (w x : ℤ) (m : Marker) (s : IndentStateZ) :
    setFromDragZ w m x (setFromDragZ w m x s) = setFromDragZ w m x s := by
  obtain ⟨l, r, f⟩ := s
  cases m <;>
    simp only [setFromDragZ, clampZ, IndentStateZ.mk.injEq, true_and,
      and_true] <;>
    omega

/-- C7 counterexample: with the fractional pointer position 1/2 (pointer
coordinates are not integers in general), a left drag from the all-zero state
at track width 960 yields leftIndent 1 and firstLineIndent 0, but applying
the same update again yields firstLineIndent 1, so the update is not
idempotent as claimed. -/
theorem drag_idempotence_counterexample :
    setFromDrag 960 .left (1 / 2) (setFromDrag 960 .left (1 / 2) ⟨0, 0, 0⟩) ≠
      setFromDrag 960 .left (1 / 2) ⟨0, 0, 0⟩ := by
  have h1 : setFromDrag 960 .left (1 / 2) ⟨0, 0, 0⟩ = ⟨1, 0, 0⟩ := by
    norm_num [setFromDrag, clamp, jround, minGap]
  rw [h1]
  have h2 : setFromDrag 960 .left (1 / 2) ⟨1, 0, 0⟩ = ⟨1, 0, 1⟩ := by
    norm_num [setFromDrag, clamp, jround, minGap]
  rw [h2]
  intro hc
  have := congrArg IndentState.firstLineIndent hc
  norm_num at this

/-- C7 amended: the drag update is idempotent on integer inputs: for every
integer track width, pointer position and state components and every marker,
applying the same update to its own result changes nothing.  (With fractional
inputs rounding can shift the result of the second application, as the
counterexample shows.) -/
theorem drag_idempotent_on_integers (w x l r f : ℤ) (m : Marker) :
    setFromDrag (w : ℚ) m (x : ℚ)
        (setFromDrag (w : ℚ) m (x : ℚ) (castState ⟨l, r, f⟩)) =
      setFromDrag (w : ℚ) m (x : ℚ) (castState ⟨l, r, f⟩) := by
  rw [setFromDrag_castState, setFromDrag_castState, setFromDragZ_idem]

/- Claim C4. -/

/-- Left-marker drag rule as the specification words it: new left position
clamped to the interval from 0 to max 0 (rightEdge − minGap) with rightEdge
equal to trackWidth − rightIndent, and the first-line absolute position
re-clamped into the interval from 0 to rightEdge before the new left position
is subtracted.  This follows the claim text; the source uses max 0 rightEdge
as the upper bound of the re-clamp instead. -/
def leftDragSpec (w x : ℚ) (s : IndentState) : IndentState :=
  let rightEdge := w - s.rightIndent
  let newLeft := clamp x 0 (max 0 (rightEdge - minGap))
  let oldFirstAbs := s.leftIndent + s.firstLineIndent
  let newFirstAbs := clamp oldFirstAbs 0 rightEdge
  ⟨((jround newLeft : ℤ) : ℚ), s.rightIndent,
    ((jround (newFirstAbs - newLeft) : ℤ) : ℚ)⟩

/-- C4 counterexample: with trackWidth 960, rightIndent 1000 and a left drag
to x = 2000, the source clamps the new left position to 0, not to
960 − 1000 − 12 = −52 as the claimed instance demands. -/
theorem left_drag_claim_counterexample :
    (setFromDrag 960 .left 2000 ⟨0, 1000, 0⟩).leftIndent ≠
      960 - 1000 - 12 := by
  norm_num [setFromDrag, clamp, jround, minGap]

/-- C4 amended: whenever rightEdge = trackWidth − rightIndent is nonnegative,
a left-marker drag computes exactly the rule the claim states (including the
preservation and re-clamp of the first-line absolute position), and the
concrete instance holds for integer rightIndent between 0 and 948: with
trackWidth 960 and x = 2000 the new leftIndent is 960 − rightIndent − 12. -/
theorem left_drag_follows_spec :
    (∀ (w x : ℚ) (s : IndentState), 0 ≤ w - s.rightIndent →
      setFromDrag w .left x s = leftDragSpec w x s) ∧
    (∀ (r : ℤ) (l f : ℚ), 0 ≤ r → (r : ℚ) ≤ 948 →
      (setFromDrag 960 .left 2000 ⟨l, (r : ℚ), f⟩).leftIndent =
        960 - (r : ℚ) - 12) := by
  constructor
  · intro w x s h
    simp only [setFromDrag, leftDragSpec, minGap, max_eq_right h]
  · intro r l f hr h948
    have hr0 : (0 : ℚ) ≤ (r : ℚ) := by exact_mod_cast hr
    have e1 : (960 : ℚ) - (r : ℚ) - 12 = 948 - (r : ℚ) := by ring
    have hmax : max (0 : ℚ) (948 - (r : ℚ)) = 948 - (r : ℚ) :=
      max_eq_right (by linarith)
    have hclamp : clamp 2000 0 (948 - (r : ℚ)) = 948 - (r : ℚ) := by
      rw [clamp, max_eq_right (by norm_num), min_eq_left (by linarith)]
    have hcast : (948 : ℚ) - (r : ℚ) = ((948 - r : ℤ) : ℚ) := by
      push_cast
      ring
    simp only [setFromDrag, minGap]
    rw [e1, hmax, hclamp, hcast, jround_intCast]

/-- Witness for C4 amended: the general rule at track width 960, the all-zero
state, x = 2000, and the instance at rightIndent 100. -/
theorem left_drag_follows_spec_witness :
    setFromDrag 960 .left 2000 ⟨0, 0, 0⟩ = leftDragSpec 960 2000 ⟨0, 0, 0⟩ ∧
    (setFromDrag 960 .left 2000 ⟨0, 100, 0⟩).leftIndent = 848 := by
  constructor
  · exact left_drag_follows_spec.1 960 2000 ⟨0, 0, 0⟩ (by norm_num)
  · have h := left_drag_follows_spec.2 100 0 0 (by norm_num) (by norm_num)
    norm_num at h
    exact h

/- Claim C5. -/

/-- First-line drag rule as the claim words it: firstLineIndent becomes the
rounding of clamp x 0 (trackWidth − rightIndent) minus leftIndent, with no
max 0 guard on the upper clamp bound (the source has one). -/
def firstLineDragSpec (w x : ℚ) (s : IndentState) : IndentState :=
  ⟨s.leftIndent, s.rightIndent,
    ((jround (clamp x 0 (w - s.rightIndent) - s.leftIndent) : ℤ) : ℚ)⟩

/-- C5 counterexample: at track width 20, dragging the first-line marker of
the all-zero state to x = 50 yields firstLineIndent 20 (the clamp bound is
the track width), not 50 as the claimed scenario asserts for every track
width. -/
theorem first_line_drag_claim_counterexample :
    (setFromDrag 20 .firstLine 50 ⟨0, 0, 0⟩).firstLineIndent ≠ 50 := by
  norm_num [setFromDrag, clamp, jround, minGap]

/-- C5 amended: whenever trackWidth − rightIndent is nonnegative, a
first-line drag computes exactly the claimed rule; the resulting value can be
negative (instance: dragging to x = 0 with leftIndent 100 gives −100); and
the x = 50 scenario from the all-zero state yields firstLineIndent 50 for
every track width of at least 50. -/
theorem first_line_drag_follows_spec :
    (∀ (w x : ℚ) (s : IndentState), 0 ≤ w - s.rightIndent →
      setFromDrag w .firstLine x s = firstLineDragSpec w x s) ∧
    (setFromDrag 960 .firstLine 0 ⟨100, 0, 0⟩).firstLineIndent < 0 ∧
    (∀ w : ℚ, 50 ≤ w → setFromDrag w .firstLine 50 ⟨0, 0, 0⟩ = ⟨0, 0, 50⟩) := by
  refine ⟨?_, ?_, ?_⟩
  · intro w x s h
    simp only [setFromDrag, firstLineDragSpec, minGap, max_eq_right h]
  · norm_num [setFromDrag, clamp, jround, minGap]
  · intro w hw
    have hmax : max (0 : ℚ) w = w := max_eq_right (by linarith)
    have hclamp : clamp 50 0 w = 50 := by
      rw [clamp, max_eq_right (by norm_num), min_eq_right (by linarith)]
    have h50 : jround (50 : ℚ) = 50 := by
      norm_num [jround]
    simp only [setFromDrag, minGap]
    simp only [sub_zero]
    rw [hmax, hclamp, h50]
    norm_num

/-- Witness for C5 amended: the general rule and the scenario at track width
960. -/
theorem first_line_drag_follows_spec_witness :
    setFromDrag 960 .firstLine 50 ⟨0, 0, 0⟩ =
      firstLineDragSpec 960 50 ⟨0, 0, 0⟩ ∧
    setFromDrag 960 .firstLine 50 ⟨0, 0, 0⟩ = ⟨0, 0, 50⟩ :=
  ⟨first_line_drag_follows_spec.1 960 50 ⟨0, 0, 0⟩ (by norm_num),
    first_line_drag_follows_spec.2.2 960 (by norm_num)⟩

/- Ruler interaction controller (lines 96-107 and 271-304). -/

/-- Contents of `dragStateRef.current`: the dragged marker (or null) and the
captured pointer id (or null), as initialised at lines 97-100. -/
structure DragRef where
  dragType : Option Marker
  pointerId : Option ℤ
  deriving DecidableEq

/-- Local state of one ruler instance: the drag ref, the `isDraggingRef`
flag, the `activeDragType` display state, and the indent values. -/
structure RulerState where
  drag : DragRef
  isDragging : Bool
  activeDragType : Option Marker
  indent : IndentState
  deriving DecidableEq

/-- Translation of `handleMarkerPointerDown` (lines 271-283): when the track
element is available, records the drag session for the event pointer and
immediately applies one drag update at the down position. -/
def handleMarkerPointerDown (w : ℚ) (hasTrack : Bool) (ty : Marker) (pid : ℤ)
    (x : ℚ) (s : RulerState) : RulerState :=
  if hasTrack = false then s
  else
    { s with
      isDragging := true
      drag := ⟨some ty, some pid⟩
      activeDragType := some ty
      indent := setFromDrag w ty x s.indent }

/-- Translation of `handleMarkerPointerMove` (lines 285-294): a move event is
ignored unless a drag is active and the event pointer id equals the captured
one; otherwise one drag update is applied at the move position. -/
def handleMarkerPointerMove (w : ℚ) (pid : ℤ) (x : ℚ) (s : RulerState) :
    RulerState :=
  match s.drag.dragType, s.drag.pointerId with
  | some ty, some p =>
      if p = pid then { s with indent := setFromDrag w ty x s.indent } else s
  | _, _ => s

/-- Translation of `handleMarkerPointerUp` (lines 296-304): an up or cancel
event is ignored unless its pointer id equals the captured one; on a match
the session is cleared and the indent state is left untouched. -/
def handleMarkerPointerUp (pid : ℤ) (s : RulerState) : RulerState :=
  match s.drag.pointerId with
  | some p =>
      if p = pid then
        { s with
          drag := ⟨none, none⟩
          isDragging := false
          activeDragType := none }
      else s
  | none => s

/- Claim C8. -/

/-- C8: while a session with pointer id p is active, a move or an up event
with a different pointer id changes nothing at all, and an up event with id p
clears the session without touching the indent state; in particular after a
pointer-down with id 5, a move with id 7 changes nothing and an up with id 5
ends the drag, keeping the indent state of the down event. -/
theorem pointer_session_exclusive (w : ℚ) (s : RulerState) (m : Marker)
    (p q : ℤ) (x : ℚ) (hs : s.drag = ⟨some m, some p⟩) (hq : q ≠ p) :
    handleMarkerPointerMove w q x s = s ∧
    handleMarkerPointerUp q s = s ∧
    handleMarkerPointerUp p s =
      { s with
        drag := ⟨none, none⟩
        isDragging := false
        activeDragType := none } ∧
    (∀ (x₀ x₁ : ℚ) (s₀ : RulerState) (m₀ : Marker),
      handleMarkerPointerMove w 7 x₁
          (handleMarkerPointerDown w true m₀ 5 x₀ s₀) =
        handleMarkerPointerDown w true m₀ 5 x₀ s₀ ∧
      (handleMarkerPointerUp 5
          (handleMarkerPointerDown w true m₀ 5 x₀ s₀)).drag = ⟨none, none⟩ ∧
      (handleMarkerPointerUp 5
          (handleMarkerPointerDown w true m₀ 5 x₀ s₀)).indent =
        (handleMarkerPointerDown w true m₀ 5 x₀ s₀).indent) := by
  have hq' : p ≠ q := fun hc => hq hc.symm
  refine ⟨?_, ?_, ?_, ?_⟩
  · simp [handleMarkerPointerMove, hs, hq']
  · simp [handleMarkerPointerUp, hs, hq']
  · simp [handleMarkerPointerUp, hs]
  · intro x₀ x₁ s₀ m₀
    refine ⟨?_, ?_, ?_⟩
    · simp [handleMarkerPointerMove, handleMarkerPointerDown]
    · simp [handleMarkerPointerUp, handleMarkerPointerDown]
    · simp [handleMarkerPointerUp, handleMarkerPointerDown]

/-- Witness for C8, on a concrete active session with pointer id 5 and a
move event with pointer id 7. -/
theorem pointer_session_exclusive_witness :
    handleMarkerPointerMove 960 7 100
        ⟨⟨some .left, some 5⟩, true, some .left, ⟨0, 0, 0⟩⟩ =
      ⟨⟨some .left, some 5⟩, true, some .left, ⟨0, 0, 0⟩⟩ :=
  (pointer_session_exclusive 960
    ⟨⟨some .left, some 5⟩, true, some .left, ⟨0, 0, 0⟩⟩
    .left 5 7 100 rfl (by decide)).1

/- Document model for the setIndentRuler command (lines 43-88). -/

/-- Value of a node attribute: the indent attributes are numbers, others
(textAlign and similar) may be strings; undefined keys map to `missing`,
mirroring a JavaScript object used as a key-value map. -/
inductive AttrValue where
  | num (q : ℚ)
  | str (s : String)
  | missing
  deriving DecidableEq

/-- Attribute map of a node, a JavaScript object read by key. -/
def Attrs : Type := String → AttrValue

/-- Document node: a type name (such as "paragraph", "heading" or "doc") and
an attribute map. -/
structure PMNode where
  typeName : String
  attrs : Attrs

/-- Document contents by position, as read by `tr.doc.nodeAt(pos)` at line
67; positions without a node map to none. -/
def Doc : Type := ℤ → Option PMNode

/-- Resolved selection anchor, mirroring the `$from` object of line 48: its
depth, the ancestor node at each depth, and the position before the node at
each depth (line 66 uses `$from.before(targetDepth + 1)`). -/
structure SelFrom where
  depth : ℕ
  node : ℕ → Option PMNode
  before : ℕ → ℤ

/-- Test from lines 53-59: a depth is usable when its node exists and is a
paragraph or a heading (a null node is skipped by the `continue`). -/
def isBlock : Option PMNode → Bool
  | none => false
  | some n => n.typeName == "paragraph" || n.typeName == "heading"

/-- Descending search of lines 51-60: scan depths from the argument down to
0 and return the first depth whose node is a paragraph or heading. -/
def findDepthAux (sel : SelFrom) : ℕ → Option ℕ
  | 0 => if isBlock (sel.node 0) then some 0 else none
  | d + 1 =>
      if isBlock (sel.node (d + 1)) then some (d + 1) else findDepthAux sel d

/-- The `targetDepth` computed by the loop at lines 49-60, none when the
loop finishes with `targetDepth < 0`. -/
def findTargetDepth (sel : SelFrom) : Option ℕ := findDepthAux sel sel.depth

/-- Attribute spread of lines 72-77: `{...node.attrs, leftIndent,
rightIndent, firstLineIndent}` replaces the three indent keys and keeps
every other key. -/
def applyIndentAttrs (a : Attrs) (l r f : ℚ) : Attrs :=
  fun k =>
    if k = "leftIndent" then .num l
    else if k = "rightIndent" then .num r
    else if k = "firstLineIndent" then .num f
    else a k

/-- Translation of the `setIndentRuler` command (lines 45-86): find the
nearest paragraph or heading ancestor of the selection, reread the node at
its position, and replace that single node by one with the same type and the
spread attributes (`tr.setNodeMarkup(pos, undefined, nextAttrs)`, line 79).
A `none` result models the `return false` paths that leave the document
untouched. -/
def setIndentRuler (l r f : ℚ) (sel : SelFrom) (doc : Doc) : Option Doc :=
  match findTargetDepth sel with
  | none => none
  | some d =>
      let pos := sel.before (d + 1)
      match doc pos with
      | none => none
      | some node =>
          some fun p =>
            if p = pos then some ⟨node.typeName, applyIndentAttrs node.attrs l r f⟩
            else doc p

/-- Specification of the descending depth search: a found depth is within
range, its node is a paragraph or heading, and every deeper candidate (any
depth strictly above it, up to the search start) is not one. -/
theorem findDepthAux_spec (sel : SelFrom) :
    ∀ d0 d, findDepthAux sel d0 = some d →
      d ≤ d0 ∧ isBlock (sel.node d) = true ∧
      ∀ e, d < e → e ≤ d0 → isBlock (sel.node e) = false := by
  intro d0
  induction d0 with
  | zero =>
      intro d h
      rw [findDepthAux] at h
      by_cases hb : isBlock (sel.node 0) = true
      · rw [if_pos hb] at h
        obtain rfl : (0 : ℕ) = d := Option.some.inj h
        exact ⟨le_rfl, hb,
          fun e he1 he2 => absurd (he1.trans_le he2) (lt_irrefl _)⟩
      · rw [if_neg hb] at h
        exact absurd h (by simp)
  | succ n ih =>
      intro d h
      rw [findDepthAux] at h
      by_cases hb : isBlock (sel.node (n + 1)) = true
      · rw [if_pos hb] at h
        obtain rfl : n + 1 = d := Option.some.inj h
        exact ⟨le_rfl, hb,
          fun e he1 he2 => absurd (he1.trans_le he2) (lt_irrefl _)⟩
      · rw [if_neg hb] at h
        obtain ⟨h1, h2, h3⟩ := ih d h
        refine ⟨Nat.le_succ_of_le h1, h2, ?_⟩
        intro e he1 he2
        by_cases he : e = n + 1
        · subst he
          simp only [Bool.not_eq_true] at hb
          exact hb
        · exact h3 e he1 (by omega)

/- Claim C9. -/

/-- C9: when no paragraph or heading ancestor exists at the selection, the
setIndentRuler command returns its failure value without producing any
document change, and when the container reference is unavailable the
pagination update leaves the exposed state unchanged; both functions are
total, so neither condition can raise. -/
theorem missing_target_silent_noop (l r f : ℚ) (sel : SelFrom) (doc : Doc)
    (hnone : ∀ d, d ≤ sel.depth → isBlock (sel.node d) = false) :
    setIndentRuler l r f sel doc = none ∧
    ∀ (dpr : ℚ) (s : PagState), updatePagination dpr none s = s := by
  constructor
  · have key : ∀ d, d ≤ sel.depth → findDepthAux sel d = none := by
      intro d
      induction d with
      | zero =>
          intro h
          rw [findDepthAux, hnone 0 h]
          simp
      | succ n ih =>
          intro h
          rw [findDepthAux, hnone (n + 1) h]
          simp only [Bool.false_eq_true, if_false]
          exact ih (by omega)
    rw [setIndentRuler, findTargetDepth, key sel.depth le_rfl]
  · intro dpr s
    rfl

/-- Node used by the no-block witness selection: a plain document root. -/
def demoRoot : PMNode := ⟨"doc", fun _ => .missing⟩

/-- Witness selection with no paragraph or heading ancestor at any depth. -/
def demoSelNoBlock : SelFrom := ⟨1, fun _ => some demoRoot, fun e => (e : ℤ)⟩

/-- Witness document for the no-block selection. -/
def demoDocRootOnly : Doc := fun p => if p = 1 then some demoRoot else none

/-- Witness for C9: a selection whose ancestors are all the document root. -/
theorem missing_target_silent_noop_witness :
    setIndentRuler 1 2 3 demoSelNoBlock demoDocRootOnly = none ∧
    updatePagination 1 none ⟨1, 1⟩ = ⟨1, 1⟩ := by
  have h := missing_target_silent_noop 1 2 3 demoSelNoBlock demoDocRootOnly
    (fun d hd => rfl)
  exact ⟨h.1, h.2 1 ⟨1, 1⟩⟩

/- Claim C10. -/

/-- Inline text node of the cursor layout below. -/
def cursorText : PMNode := ⟨"text", fun _ => .missing⟩

/-- Paragraph node of the cursor layout, the nearest block ancestor of the
selection. -/
def cursorPara : PMNode := ⟨"paragraph", fun _ => .missing⟩

/-- Root node of the cursor layout. -/
def cursorRoot : PMNode := ⟨"doc", fun _ => .missing⟩

/-- Position layout of the ProseMirror document doc(paragraph(text "hi")),
following the nodeAt semantics of prosemirror-model: position 0 is directly
before the paragraph, positions 1 and 2 lie inside the inline text node
(nodeAt returns that text node), and position 3, the end of the textblock,
has no node after it. -/
def cursorDoc : Doc :=
  fun p =>
    if p = 0 then some cursorPara
    else if p = 1 then some cursorText
    else if p = 2 then some cursorText
    else none

/-- Resolution of a text cursor at position 2 inside the paragraph of
`cursorDoc`, with the real ProseMirror semantics of the before method: for d
at most the depth, before d is the position directly before node d (here
before 1 = 0, directly before the paragraph), and before (depth + 1) is the
original selection position itself (here 2).  The depth is 1: node 0 is the
root, node 1 the paragraph. -/
def cursorSel : SelFrom :=
  ⟨1,
    fun d =>
      if d = 0 then some cursorRoot
      else if d = 1 then some cursorPara
      else none,
    fun d => if d = 1 then 0 else 2⟩

/-- C10 (code bug): evaluated on the real resolution of a text cursor in a
paragraph, the setIndentRuler command finds targetDepth = depth, so the
position computed at line 66, `$from.before(targetDepth + 1)`, is the raw
cursor position; the command then succeeds in the model while leaving the
paragraph at position 0 untouched and rewriting the inline text node at
position 2 instead.  The node it modifies is never the nearest paragraph or
heading ancestor, which sits at `$from.before(targetDepth)` — an off-by-one
at line 66.  (Against the real collaborator the call even throws, since
ProseMirror setNodeMarkup cannot recreate a text node.) -/
theorem set_indent_ruler_off_by_one :
    ∃ doc', setIndentRuler 1 2 3 cursorSel cursorDoc = some doc' ∧
      doc' 0 = cursorDoc 0 ∧
      cursorDoc 0 = some cursorPara ∧
      ∃ n, doc' 2 = some n ∧ n.typeName = "text" ∧
        n.typeName ≠ "paragraph" ∧ n.typeName ≠ "heading" := by
  refine ⟨_, rfl, rfl, rfl,
    ⟨cursorText.typeName, applyIndentAttrs cursorText.attrs 1 2 3⟩,
    rfl, rfl, by decide, by decide⟩

end DocEditor
